import Mathlib

/-!
Verification of the terry-form-mcp execution gateway.

Shallow embedding of the security-relevant components of the repository:
path sandboxing (`server_mcp_only.validate_and_normalize_path`,
`server_enhanced_with_lsp.validate_safe_path`), the command policy and
execution engine (`internal/terraform/executor.py`), the controlled
environment builder and core runner (`terry-form-mcp.py`), the batch
runners (`run_terraform_actions`, the `terry` tool loops), the plan
parser classification, and the request sanitizer
(`mcp_request_validator.sanitize_params`).

Conventions: Python dicts with string keys become association lists or
functions `String → Option String`; filesystem canonicalization
(`Path.resolve`) is an abstract parameter; spawned-process outcomes are an
explicit inductive; a Python exception crossing a function boundary is the
`.raised` constructor of `ExecBoundary`.  Python's `str.isalnum` is
modelled over ASCII alphanumerics.
-/

/-- Characters that are awkward to write literally are fixed by code point:
backtick (96), apostrophe (39), double quote (34), open brace (123),
close brace (125), backslash (92). -/
def backtickChar : Char := Char.ofNat 96

def apostropheChar : Char := Char.ofNat 39

def dquoteChar : Char := Char.ofNat 34

def obraceChar : Char := Char.ofNat 123

def cbraceChar : Char := Char.ofNat 125

def backslashChar : Char := Char.ofNat 92

/-- Python `s.startswith(pre)`: the character sequence of `pre` is a
prefix of that of `s` (written over character lists so concrete instances
evaluate inside the kernel). -/
def pyStartsWith (s pre : String) : Bool :=
  pre.toList.isPrefixOf s.toList

/-- Python `s.isalnum()`: true iff `s` is nonempty and every character is
alphanumeric (modelled over ASCII). -/
def pyIsAlnum (s : String) : Bool :=
  !s.isEmpty && s.toList.all Char.isAlphanum

/-- Python `key.replace('_', '').replace('-', '')`: removing every
underscore and dash (single-character replacement by the empty string is
exactly a filter). -/
def stripUnderscoreDash (s : String) : String :=
  String.mk (s.toList.filter (fun c => c ≠ '_' ∧ c ≠ '-'))

/-- The identifier check shared by `validate_terraform_vars` and
`build_var_args`: `key.replace('_', '').replace('-', '').isalnum()`. -/
def validVarKey (k : String) : Bool :=
  pyIsAlnum (stripUnderscoreDash k)

/-! ## PathSandbox

`server_mcp_only.validate_and_normalize_path` and
`server_enhanced_with_lsp.validate_safe_path`.

A canonical (resolved) path is a list of components.  Filesystem
resolution — `Path.resolve()`, which follows symlinks and eliminates
`..` — is an abstract parameter `canon : String → Option (List String)`;
`none` models `resolve` raising (caught by the Python `except`, which
rejects).  `real_path.relative_to(base)` succeeds exactly when `base`'s
components are a prefix of `real_path`'s components, i.e. when the path
equals or descends from the base. -/

/-- The candidate path: Python keeps an absolute input as-is and joins a
relative input to the workspace root (`workspace_base / path`). -/
def candidatePath (path workspaceRoot : String) : String :=
  if pyStartsWith path "/" then path else workspaceRoot ++ "/" ++ path

/-- `server_mcp_only.validate_and_normalize_path`: scheme-prefixed
references pass through (modelled by the caller-side hypothesis; here the
function returns the raw path marked by `Sum.inl`); otherwise resolve the
candidate and require it to sit at or below the resolved workspace root.
Returns the canonical path components on acceptance, `none` on rejection
(the Python function returns `str(real_path)`, a faithful rendering of
those components). -/
def validate_and_normalize_path (canon : String → Option (List String))
    (path workspaceRoot : String) : Option (String ⊕ List String) :=
  if pyStartsWith path "github://" || pyStartsWith path "workspace://" then
    some (Sum.inl path)
  else
    match canon (candidatePath path workspaceRoot), canon workspaceRoot with
    | some realPath, some realBase =>
        if realBase.isPrefixOf realPath then some (Sum.inr realPath) else none
    | _, _ => none

/-- `server_enhanced_with_lsp.validate_safe_path`: same logic returning
only a Boolean verdict. -/
def validate_safe_path (canon : String → Option (List String))
    (path workspaceRoot : String) : Bool :=
  if pyStartsWith path "github://" || pyStartsWith path "workspace://" then
    true
  else
    match canon (candidatePath path workspaceRoot), canon workspaceRoot with
    | some realPath, some realBase => realBase.isPrefixOf realPath
    | _, _ => false

/-! ## ControlledEnvironment

`terry-form-mcp.py`: `ALLOWED_ENV_VARS`, `FORCED_ENV_VARS`,
`get_controlled_env`.  An environment is a function
`String → Option String` (a variable name's value, or `none` when the
variable is absent). -/

/-- `ALLOWED_ENV_VARS` from `terry-form-mcp.py`. -/
def ALLOWED_ENV_VARS : List String :=
  ["HOME", "PATH", "USER", "TF_LOG", "TF_LOG_PATH", "TF_CLI_ARGS",
   "AWS_ACCESS_KEY_ID", "AWS_SECRET_ACCESS_KEY", "AWS_SESSION_TOKEN",
   "AWS_DEFAULT_REGION", "AWS_REGION", "AWS_PROFILE",
   "GOOGLE_CREDENTIALS", "GOOGLE_APPLICATION_CREDENTIALS",
   "GOOGLE_PROJECT", "GOOGLE_REGION", "GOOGLE_ZONE",
   "ARM_CLIENT_ID", "ARM_CLIENT_SECRET", "ARM_SUBSCRIPTION_ID",
   "ARM_TENANT_ID", "TF_TOKEN_app_terraform_io", "TERRAFORM_CLOUD_TOKEN"]

/-- `FORCED_ENV_VARS` from `terry-form-mcp.py`. -/
def FORCED_ENV_VARS : List (String × String) :=
  [("TF_IN_AUTOMATION", "true"), ("TF_INPUT", "false"),
   ("CHECKPOINT_DISABLE", "true")]

/-- Lookup of a forced automation variable. -/
def forcedLookup (k : String) : Option String :=
  (FORCED_ENV_VARS.find? (fun p => p.1 == k)).map (·.2)

/-- `get_controlled_env`: copy each allow-listed variable that is present
in the ambient environment, then overwrite with the forced automation
variables (`env.update(FORCED_ENV_VARS)` makes a forced key's value win
unconditionally). -/
def get_controlled_env (ambient : String → Option String) :
    String → Option String := fun k =>
  match forcedLookup k with
  | some v => some v
  | none => if ALLOWED_ENV_VARS.contains k then ambient k else none

/-- Environment seen by the child process of
`internal/terraform/executor.py`'s `execute_terraform`:
`asyncio.create_subprocess_exec` is called there without an `env`
argument, so the child inherits the parent's full ambient environment. -/
def executor_spawn_env (ambient : String → Option String) :
    String → Option String := ambient

/-! ## CommandPolicy and ExecutionEngine

`internal/terraform/executor.py`: `TerraformExecutor.build_var_args`,
`_build_command`, `execute_terraform`.  `build_var_args` raises
`ValueError` on an invalid variable name, modelled with `Except`;
`execute_terraform` builds the command *outside* its `try`, so that
exception crosses the `execute_terraform` boundary (`ExecBoundary.raised`
below), while anything raised by the spawn itself is caught by the
`except Exception` and converted to a result dictionary. -/

/-- Characters `shlex.quote` considers safe: ASCII alphanumerics plus
underscore, at-sign, percent, plus, equals, colon, comma, dot, slash,
dash. -/
def shlexSafeChar (c : Char) : Bool :=
  c.isAlphanum || c ∈ ['_', '@', '%', '+', '=', ':', ',', '.', '/', '-']

/-- A single apostrophe as a string. -/
def squote : String := String.mk [apostropheChar]

/-- `shlex.quote`: return the string unchanged when nonempty and all-safe,
otherwise wrap in single quotes, escaping any embedded single quote as
`'"'"'`. -/
def shlexQuote (s : String) : String :=
  if s ≠ "" ∧ s.toList.all shlexSafeChar then s
  else
    squote ++
      (String.mk (s.toList.flatMap (fun c =>
        if c = apostropheChar then
          [apostropheChar, dquoteChar, apostropheChar, dquoteChar, apostropheChar]
        else [c]))) ++ squote

/-- `TerraformExecutor.build_var_args`: for each binding in order, reject
(raise `ValueError`) on an invalid name, else append
`["-var", "key=value"]` with the value `shlex.quote`d. -/
def build_var_args : List (String × String) → Except String (List String)
  | [] => .ok []
  | (k, v) :: rest =>
      if !validVarKey k then .error ("Invalid variable name: " ++ k)
      else
        match build_var_args rest with
        | .error e => .error e
        | .ok args => .ok (["-var", k ++ "=" ++ shlexQuote v] ++ args)

/-- `TerraformExecutor.allowed_actions`. -/
def allowed_actions : List String :=
  ["init", "validate", "fmt", "plan", "show", "graph", "providers", "version"]

/-- `TerraformExecutor.disallowed_actions`. -/
def disallowed_actions : List String := ["apply", "destroy", "import"]

/-- `TerraformExecutor._build_command`: fixed per-action templates, the
`plan` template extended with variable arguments (which can raise), and
caller extra arguments appended last. -/
def build_command (action : String) (extraArgs : Option (List String))
    (varsDict : Option (List (String × String))) :
    Except String (List String) :=
  let baseCmds : List (String × List String) :=
    [("init", ["terraform", "init", "-input=false"]),
     ("validate", ["terraform", "validate"]),
     ("fmt", ["terraform", "fmt", "-check", "-recursive"]),
     ("version", ["terraform", "version"]),
     ("providers", ["terraform", "providers"]),
     ("show", ["terraform", "show"]),
     ("graph", ["terraform", "graph"])]
  let core : Except String (List String) :=
    if action = "plan" then
      match varsDict with
      | some vs =>
          if vs ≠ [] then
            match build_var_args vs with
            | .error e => .error e
            | .ok args => .ok (["terraform", "plan", "-input=false", "-no-color"] ++ args)
          else .ok ["terraform", "plan", "-input=false", "-no-color"]
      | none => .ok ["terraform", "plan", "-input=false", "-no-color"]
    else
      match baseCmds.find? (fun p => p.1 == action) with
      | some p => .ok p.2
      | none => .ok ["terraform", action]
  match core with
  | .error e => .error e
  | .ok cmd => .ok (cmd ++ extraArgs.getD [])

/-- Result dictionary of `execute_terraform`
(`success`, `exit_code`, `output`, `error`). -/
structure ExecResult where
  success : Bool
  exit_code : Int
  output : String
  error : String
deriving DecidableEq, Repr

/-- Outcome of the `asyncio.create_subprocess_exec` + `communicate` block:
either the process ran to completion with an exit code and captured
streams, or some exception was raised inside the `try`. -/
inductive SpawnRes where
  | ok (rc : Int) (out err : String)
  | exc (msg : String)
deriving DecidableEq, Repr

/-- What crosses the `execute_terraform` call boundary: a returned result
dictionary, or an uncaught Python exception. -/
inductive ExecBoundary where
  | returned (r : ExecResult)
  | raised (msg : String)
deriving DecidableEq, Repr

/-- The security rejection returned for a disallowed action. -/
def securityReject (action : String) : ExecResult :=
  ⟨false, 1, "", "Action " ++ squote ++ action ++ squote ++
    " is not allowed for security reasons"⟩

/-- The rejection returned for an action in neither list. -/
def unknownReject (action : String) : ExecResult :=
  ⟨false, 1, "", "Unknown action " ++ squote ++ action ++ squote⟩

/-- The two early-return security checks at the head of
`execute_terraform`: block-list first, then allow-list membership;
`none` means both gates passed. -/
def action_gate (action : String) : Option ExecResult :=
  if disallowed_actions.contains action then some (securityReject action)
  else if !allowed_actions.contains action then some (unknownReject action)
  else none

/-- `TerraformExecutor.execute_terraform`: gates, then command
construction (outside the `try`: a `ValueError` from `build_var_args`
escapes as `.raised`), then the spawn, whose own exceptions are caught and
converted into a failed result. -/
def execute_terraform (action : String) (_path : String)
    (extraArgs : Option (List String))
    (varsDict : Option (List (String × String)))
    (spawn : SpawnRes) : ExecBoundary :=
  match action_gate action with
  | some r => .returned r
  | none =>
      match build_command action extraArgs varsDict with
      | .error e => .raised e
      | .ok _cmd =>
          match spawn with
          | .ok rc out err => .returned ⟨rc == 0, rc, out, err⟩
          | .exc msg => .returned ⟨false, -1, "", msg⟩

/-! ## Gateway checks in `server_mcp_only.py`

`BLOCKED_ACTIONS`, `ALLOWED_TERRAFORM_ACTIONS`,
`validate_terraform_vars`, and the gate sequence of the `terry` tool. -/

/-- `server_mcp_only.BLOCKED_ACTIONS`. -/
def BLOCKED_ACTIONS : List String :=
  ["apply", "destroy", "import", "taint", "untaint"]

/-- `server_mcp_only.ALLOWED_TERRAFORM_ACTIONS`. -/
def ALLOWED_TERRAFORM_ACTIONS : List String :=
  ["init", "validate", "fmt", "plan"]

/-- Error message for a block-listed action. -/
def blockedActionMsg (a : String) : String :=
  "Action " ++ dquoteChar.toString ++ a ++ dquoteChar.toString ++
    " is blocked for security reasons"

/-- Error message for an action outside both lists. -/
def unknownActionMsg (a : String) : String :=
  "Unknown action " ++ dquoteChar.toString ++ a ++ dquoteChar.toString ++
    ". Allowed: init, validate, fmt, plan"

/-- The per-action test inside `terry`'s validation loop: block-list
membership is tested first, then allow-list membership; `none` means the
action passed both gates. -/
def serverActionCheck (a : String) : Option String :=
  if BLOCKED_ACTIONS.contains a then some (blockedActionMsg a)
  else if !ALLOWED_TERRAFORM_ACTIONS.contains a then some (unknownActionMsg a)
  else none

/-- `terry`'s action-validation loop: the first error over the action list
in caller order, before variables, path or execution are touched. -/
def serverActionsCheck : List String → Option String
  | [] => none
  | a :: rest =>
      match serverActionCheck a with
      | some e => some e
      | none => serverActionsCheck rest

/-- `dangerous_chars` of `server_mcp_only.validate_terraform_vars`:
dollar, backtick, backslash, double quote, single quote, semicolon,
ampersand, pipe, greater-than, less-than, parentheses, braces. -/
def dangerous_chars : List Char :=
  ['$', backtickChar, backslashChar, dquoteChar, apostropheChar,
   ';', '&', '|', '>', '<', '(', ')', obraceChar, cbraceChar]

/-- The eleven shell metacharacters named by the specification (the
claim's list; a subset of `dangerous_chars`). -/
def specMetachars : List Char :=
  ['$', backtickChar, ';', '&', '|', '>', '<', '(', ')', obraceChar,
   cbraceChar]

/-- `server_mcp_only.validate_terraform_vars` over an association list in
dict iteration order (values already serialized by Python `str`): reject
on the first malformed key or the first value containing a dangerous
character, returning `(is_valid, error_message)`. -/
def validate_terraform_vars : List (String × String) → Bool × String
  | [] => (true, "")
  | (k, v) :: rest =>
      if !validVarKey k then
        (false, "Invalid variable name: " ++ k)
      else if v.toList.any (fun c => dangerous_chars.contains c) then
        (false, "Variable value contains dangerous characters: " ++ k)
      else validate_terraform_vars rest

/-- The execution loop at the tail of `server_mcp_only.terry`: run the
actions in order against the executor, appending each result and breaking
after the first result whose `success` is false (no `fmt` exemption in
this loop). `exec` abstracts one `execute_terraform` call on the
validated workspace path. -/
def terry_exec_loop (exec : String → ExecResult) : List String → List ExecResult
  | [] => []
  | a :: rest =>
      let r := exec a
      r :: (if !r.success then [] else terry_exec_loop exec rest)

/-- Outcome of one `terry` invocation: an early `{'error': ...}` return,
or the executed batch results. -/
inductive TerryOutcome where
  | error (msg : String)
  | executed (results : List ExecResult)
deriving DecidableEq, Repr

/-- `server_mcp_only.terry`, gate for gate in source order:
the `auto_approve` / `destroy` escalation flags, the action list
validation, the variable validation (`if vars:` — skipped when the dict
is absent or empty), then path handling (the `github://` branch and
`validate_and_normalize_path`, abstracted into `pathStep`, `none` being
rejection), and finally the execution loop on the validated path. -/
def terry_model (auto_approve destroy : Bool) (actions : List String)
    (vars : List (String × String)) (path : String)
    (pathStep : String → Option String)
    (exec : String → String → ExecResult) : TerryOutcome :=
  if auto_approve then .error "auto_approve is blocked for security reasons"
  else if destroy then .error "destroy action is blocked for security reasons"
  else
    match serverActionsCheck actions with
    | some e => .error e
    | none =>
        if vars ≠ [] ∧ !(validate_terraform_vars vars).1 then
          .error ("Variable validation failed: " ++ (validate_terraform_vars vars).2)
        else
          match pathStep path with
          | none => .error "Invalid path: access outside workspace is not allowed"
          | some p => .executed (terry_exec_loop (exec p) actions)

/-! ## ResultParser

`terry-form-mcp.py`: `parse_plan_output`'s classification of the decoded
machine-readable plan.  A resource change is the relevant slice of one
entry of `resource_changes`: its `address`, `type`, `name` and the
`change.actions` list. -/

/-- One entry of the decoded plan's `resource_changes`. -/
structure ResourceChange where
  address : String
  rtype : String
  name : String
  actions : List String
deriving DecidableEq, Repr

/-- The `add`/`change`/`destroy` counters of a plan summary. -/
structure PlanSummary where
  add : Nat
  change : Nat
  destroy : Nat
deriving DecidableEq, Repr

/-- The per-resource record `parse_plan_output` appends to `resources`:
`{address, type, name, actions}` copied from the change entry. -/
structure ResourceInfo where
  address : String
  rtype : String
  name : String
  actions : List String
deriving DecidableEq, Repr

/-- The record built for one change entry. -/
def toResourceInfo (c : ResourceChange) : ResourceInfo :=
  ⟨c.address, c.rtype, c.name, c.actions⟩

/-- One step of the counting loop: `"create" in actions` increments `add`,
`"update" in actions` increments `change`, `"delete" in actions`
increments `destroy` (independent `if`s, not `elif`s). -/
def countStep (s : PlanSummary) (c : ResourceChange) : PlanSummary :=
  ⟨s.add + (if c.actions.contains "create" then 1 else 0),
   s.change + (if c.actions.contains "update" then 1 else 0),
   s.destroy + (if c.actions.contains "delete" then 1 else 0)⟩

/-- The classification loop of `parse_plan_output`: left fold of the
counters over the change entries in order, and the `resources` list built
alongside. -/
def parse_plan_changes (changes : List ResourceChange) :
    PlanSummary × List ResourceInfo :=
  (changes.foldl countStep ⟨0, 0, 0⟩, changes.map toResourceInfo)

/-! ## ExecutionEngine: `terry-form-mcp.run_terraform`

The workspace filesystem is abstracted to the two temporary artifacts the
function manages (the `.tfvars.json` variable file and the `tfplan` plan
file) plus the two properties of the target path it checks.  The
`subprocess.run` call is abstracted to a `SpawnOutcome`; the `finally`
block's unlinks are modelled as succeeding.  The JSON enrichment of
`version`/`show` responses attaches extra response keys on the completed
path and is not modelled (no claim depends on it); the plan enrichment is
modelled through `planParse` (the outcome of `parse_plan_output`, itself a
subprocess plus the classification above) and `textSummary` (the outcome
of the regex fallback `parse_text_plan_summary` on the captured
stdout). -/

/-- Only the outcomes distinguished by `run_terraform`'s `except` arms:
completion, `TimeoutExpired` (with the partial captured stdout bytes),
`FileNotFoundError`, `PermissionError`, or any other exception. -/
inductive SpawnOutcome where
  | completed (rc : Int) (out err : String) (createsPlanFile : Bool)
  | timedOut (partialOut : Option String)
  | notFound
  | permDenied (msg : String)
  | otherExc (msg : String)
deriving DecidableEq, Repr

/-- The filesystem facts `run_terraform` reads and writes. -/
structure FS where
  pathExists : Bool
  pathIsDir : Bool
  varFile : Bool
  planFile : Bool
deriving DecidableEq, Repr

/-- The response dictionary of `run_terraform` (`duration` is the rounded
wall-clock time as a rational). -/
structure RunResult where
  action : String
  success : Bool
  exit_code : Int
  stdout : String
  stderr : String
  duration : ℚ
  plan_summary : Option PlanSummary
  resources : Option (List ResourceInfo)
deriving DecidableEq, Repr

/-- Python `round(x, 2)`. -/
def round2 (q : ℚ) : ℚ := ((round (q * 100) : ℤ) : ℚ) / 100

/-- The `finally` block: unlink the temporary variable file and the
`tfplan` artifact when present. -/
def cleanupArtifacts (fs : FS) : FS :=
  { fs with varFile := false, planFile := false }

/-- `terry-form-mcp.run_terraform`.  Returns the response, the final
filesystem, and the number of child processes spawned (the terraform
action itself plus, on a completed `plan`, the `terraform show` spawned
by `parse_plan_output` when a `tfplan` artifact exists). -/
def run_terraform (path action : String) (vars : List (String × String))
    (timeout : Nat) (fs : FS) (spawn : SpawnOutcome) (elapsed : ℚ)
    (planParse : Option (PlanSummary × List ResourceInfo))
    (textSummary : PlanSummary) : RunResult × FS × Nat :=
  if !fs.pathExists then
    (⟨action, false, -1, "", "Workspace path does not exist: " ++ path,
      0, none, none⟩, fs, 0)
  else if !fs.pathIsDir then
    (⟨action, false, -1, "", "Workspace path is not a directory: " ++ path,
      0, none, none⟩, fs, 0)
  else
    let fs1 := if action = "plan" ∧ vars ≠ [] then { fs with varFile := true } else fs
    match spawn with
    | .timedOut partialOut =>
        (⟨action, false, -1, partialOut.getD "",
          "Operation timed out after " ++ toString timeout ++ " seconds",
          (timeout : ℚ), none, none⟩, cleanupArtifacts fs1, 1)
    | .notFound =>
        (⟨action, false, -1, "",
          "Terraform binary not found. Ensure terraform is installed and in PATH.",
          0, none, none⟩, cleanupArtifacts fs1, 1)
    | .permDenied msg =>
        (⟨action, false, -1, "", "Permission denied: " ++ msg, 0, none, none⟩,
          cleanupArtifacts fs1, 1)
    | .otherExc msg =>
        (⟨action, false, -1, "", "Unexpected error: " ++ msg, 0, none, none⟩,
          cleanupArtifacts fs1, 1)
    | .completed rc out err createsPlan =>
        let fs2 := if action = "plan" ∧ createsPlan then { fs1 with planFile := true } else fs1
        let base : RunResult :=
          ⟨action, rc == 0, rc, out, err, round2 elapsed, none, none⟩
        let response :=
          if action = "plan" then
            match planParse with
            | some pr => { base with plan_summary := some pr.1, resources := some pr.2 }
            | none => { base with plan_summary := some textSummary }
          else base
        (response, cleanupArtifacts fs2,
          1 + (if action = "plan" ∧ fs2.planFile then 1 else 0))

/-! ## Batch runners -/

/-- `terry-form-mcp.run_terraform_actions`, abstracted over one action's
execution (`run a` yields the action's result and whether it succeeded):
append each result in caller order, stopping after the first failed
action other than `fmt`. -/
def run_terraform_actions (run : String → Bool) :
    List String → List (String × Bool)
  | [] => []
  | a :: rest =>
      let s := run a
      (a, s) :: (if !s ∧ a ≠ "fmt" then [] else run_terraform_actions run rest)

/-- The batch loop of `server.py`'s `terry` tool: every action runs
unconditionally; no failure aborts the batch. -/
def server_py_terry_batch (run : String → Bool) (actions : List String) :
    List (String × Bool) :=
  actions.map (fun a => (a, run a))

/-! ## RequestValidator: `mcp_request_validator.sanitize_params`

Parameter dictionaries become association lists preserving Python's
insertion order; parameter values keep only the shape the sanitizer can
produce or compare. -/

/-- A JSON-ish parameter value. -/
inductive PVal where
  | vBool : Bool → PVal
  | vStr : String → PVal
  | vNum : Int → PVal
deriving DecidableEq, Repr

/-- Python `d[k] = v` on an insertion-ordered dict: overwrite in place
when the key exists, else append. -/
def dictSet (l : List (String × PVal)) (k : String) (v : PVal) :
    List (String × PVal) :=
  if l.any (fun p => p.1 == k) then
    l.map (fun p => if p.1 == k then (k, v) else p)
  else l ++ [(k, v)]

/-- Python `d.get(k)`. -/
def dictGet (l : List (String × PVal)) (k : String) : Option PVal :=
  (l.find? (fun p => p.1 == k)).map (·.2)

/-- The `properties` key lists of `TOOL_SCHEMAS` in
`mcp_request_validator.py`, per tool name; `none` for an unregistered
tool. -/
def tool_schema_keys : String → Option (List String)
  | "terry" => some ["path", "actions", "vars", "auto_approve", "destroy"]
  | "terry_validate" => some ["file_path", "line", "character"]
  | "terry_hover" => some ["file_path", "line", "character"]
  | "terry_complete" => some ["file_path", "line", "character"]
  | "terry_format" => some ["file_path", "line", "character"]
  | "terry_workspace_info" => some ["path"]
  | "terry_lsp_status" => some []
  | "github_clone_repo" => some githubSchemaKeys
  | "github_list_terraform_files" => some githubSchemaKeys
  | "github_get_terraform_config" => some githubSchemaKeys
  | "github_prepare_workspace" => some githubSchemaKeys
  | "github_repo_info" => some githubSchemaKeys
  | "github_cleanup_repos" => some githubSchemaKeys
  | "github_list_installations" => some []
  | _ => none
where
  githubSchemaKeys : List String :=
    ["owner", "repo", "branch", "path", "pattern", "config_path",
     "workspace_name", "force", "days_old"]

/-- `MCPRequestValidator.sanitize_params`: copy the parameters, drop keys
outside the tool's schema when the tool is registered, then for any
method whose name starts with `terry` force `auto_approve` and `destroy`
to `False`. -/
def sanitize_params (method : String) (params : List (String × PVal)) :
    List (String × PVal) :=
  let sanitized := params
  let sanitized :=
    match tool_schema_keys method with
    | some keys => sanitized.filter (fun p => keys.contains p.1)
    | none => sanitized
  if pyStartsWith method "terry" then
    dictSet (dictSet sanitized "auto_approve" (.vBool false)) "destroy" (.vBool false)
  else sanitized

/-! ## Claims -/

/-- The Boolean prefix test on component lists agrees with the prefix
relation. -/
theorem isPrefixOf_true_iff (l1 l2 : List String) :
    l1.isPrefixOf l2 = true ↔ l1 <+: l2 :=
  List.isPrefixOf_iff_prefix

/-- **C1**: For every caller-supplied path string without a
`github://`/`workspace://` scheme prefix: whenever path validation
accepts, the returned path is the canonical resolution of the candidate
(relative paths joined to the workspace root) and it equals or descends
from the canonicalized workspace root; whenever the canonical resolution
does not equal or descend from the canonicalized root — or
canonicalization fails — validation rejects (`none` from
`validate_and_normalize_path`, `false` from `validate_safe_path`), so a
path outside the root is never returned. -/
theorem path_sandbox_containment
    (canon : String → Option (List String)) (path workspaceRoot : String)
    (hscheme : (pyStartsWith path "github://" ||
        pyStartsWith path "workspace://") = false) :
    (∀ out, validate_and_normalize_path canon path workspaceRoot = some out →
      ∃ realPath realBase, out = Sum.inr realPath ∧
        canon (candidatePath path workspaceRoot) = some realPath ∧
        canon workspaceRoot = some realBase ∧ realBase <+: realPath) ∧
    (∀ realPath realBase,
      canon (candidatePath path workspaceRoot) = some realPath →
      canon workspaceRoot = some realBase → ¬ realBase <+: realPath →
      validate_and_normalize_path canon path workspaceRoot = none ∧
      validate_safe_path canon path workspaceRoot = false) ∧
    (canon (candidatePath path workspaceRoot) = none →
      validate_and_normalize_path canon path workspaceRoot = none ∧
      validate_safe_path canon path workspaceRoot = false) ∧
    (validate_safe_path canon path workspaceRoot = true →
      ∃ realPath realBase,
        canon (candidatePath path workspaceRoot) = some realPath ∧
        canon workspaceRoot = some realBase ∧ realBase <+: realPath) := by
  unfold validate_and_normalize_path validate_safe_path
  rw [hscheme]
  simp only [Bool.false_eq_true, if_false]
  refine ⟨?_, ?_, ?_, ?_⟩
  · intro out hout
    cases hcp : canon (candidatePath path workspaceRoot) with
    | none => simp [hcp] at hout
    | some realPath =>
      cases hcr : canon workspaceRoot with
      | none => simp [hcp, hcr] at hout
      | some realBase =>
        simp only [hcp, hcr] at hout
        by_cases hpre : realBase.isPrefixOf realPath
        · refine ⟨realPath, realBase, ?_, rfl, rfl, ?_⟩
          · simp [hpre] at hout
            exact hout.symm
          · exact (isPrefixOf_true_iff realBase realPath).mp hpre
        · simp [hpre] at hout
  · intro realPath realBase hcp hcr hpre
    have hb : realBase.isPrefixOf realPath = false := by
      rw [Bool.eq_false_iff]
      intro h
      exact hpre ((isPrefixOf_true_iff realBase realPath).mp h)
    simp [hcp, hcr, hb]
  · intro hcp
    simp [hcp]
  · intro hacc
    cases hcp : canon (candidatePath path workspaceRoot) with
    | none => simp [hcp] at hacc
    | some realPath =>
      cases hcr : canon workspaceRoot with
      | none => simp [hcp, hcr] at hacc
      | some realBase =>
        simp only [hcp, hcr] at hacc
        exact ⟨realPath, realBase, rfl, rfl,
          (isPrefixOf_true_iff realBase realPath).mp hacc⟩

/-- Witness for C1: with a concrete resolution environment over the
workspace root `/mnt/workspace`, the escaping absolute path
`/etc/passwd` (canonically `[etc, passwd]`, not below
`[mnt, workspace]`) is rejected by both validators. -/
theorem path_sandbox_containment_witness :
    validate_and_normalize_path
      (fun s => if s = "/mnt/workspace" then some ["mnt", "workspace"]
        else if s = "/etc/passwd" then some ["etc", "passwd"] else none)
      "/etc/passwd" "/mnt/workspace" = none ∧
    validate_safe_path
      (fun s => if s = "/mnt/workspace" then some ["mnt", "workspace"]
        else if s = "/etc/passwd" then some ["etc", "passwd"] else none)
      "/etc/passwd" "/mnt/workspace" = false :=
  (path_sandbox_containment
      (fun s => if s = "/mnt/workspace" then some ["mnt", "workspace"]
        else if s = "/etc/passwd" then some ["etc", "passwd"] else none)
      "/etc/passwd" "/mnt/workspace" (by decide)).2.1
    ["etc", "passwd"] ["mnt", "workspace"] (by decide) (by decide) (by decide)

/-- **C2**: Every block-listed action (`apply`, `destroy`, `import`,
`taint`, `untaint`) is rejected for any path, variables and extra
arguments: the server's per-action check fires on block-list membership
before consulting the allow-list, and the executor returns a failed
rejection without ever reaching command construction or the spawn (its
result is the gate's, independent of variables, extra arguments and
spawn outcome); block-list membership in the executor yields the security
rejection regardless of any allow-list entry, and an action in neither
list is rejected rather than passed through, at both layers. -/
theorem command_policy_blocklist (a path : String)
    (extraArgs : Option (List String))
    (varsDict : Option (List (String × String))) (spawn : SpawnRes) :
    (a ∈ BLOCKED_ACTIONS →
      serverActionCheck a = some (blockedActionMsg a) ∧
      ∃ r, action_gate a = some r ∧ r.success = false ∧
        execute_terraform a path extraArgs varsDict spawn = .returned r) ∧
    (a ∈ disallowed_actions → action_gate a = some (securityReject a)) ∧
    (a ∉ BLOCKED_ACTIONS → a ∉ ALLOWED_TERRAFORM_ACTIONS →
      serverActionCheck a = some (unknownActionMsg a)) ∧
    (a ∉ disallowed_actions → a ∉ allowed_actions →
      action_gate a = some (unknownReject a) ∧
      execute_terraform a path extraArgs varsDict spawn
        = .returned (unknownReject a)) := by
  refine ⟨?_, ?_, ?_, ?_⟩
  · intro h
    simp only [BLOCKED_ACTIONS, List.mem_cons, List.not_mem_nil, or_false] at h
    rcases h with rfl | rfl | rfl | rfl | rfl
    · exact ⟨by decide, securityReject "apply", rfl, by decide, rfl⟩
    · exact ⟨by decide, securityReject "destroy", rfl, by decide, rfl⟩
    · exact ⟨by decide, securityReject "import", rfl, by decide, rfl⟩
    · exact ⟨by decide, unknownReject "taint", rfl, by decide, rfl⟩
    · exact ⟨by decide, unknownReject "untaint", rfl, by decide, rfl⟩
  · intro h
    simp only [disallowed_actions, List.mem_cons, List.not_mem_nil,
      or_false] at h
    rcases h with rfl | rfl | rfl <;> decide
  · intro h1 h2
    simp [serverActionCheck, h1, h2]
  · intro h1 h2
    have hg : action_gate a = some (unknownReject a) := by
      simp [action_gate, h1, h2]
    exact ⟨hg, by simp [execute_terraform, hg]⟩

/-- Witness for C2: `destroy` is rejected by the server check with the
block-list message and by the executor gate with a failed result; the
out-of-both-lists action `refresh` is rejected at both layers. -/
theorem command_policy_blocklist_witness :
    (serverActionCheck "destroy" = some (blockedActionMsg "destroy") ∧
      ∃ r, action_gate "destroy" = some r ∧ r.success = false ∧
        execute_terraform "destroy" "/mnt/workspace/proj" none none
          (.ok 0 "" "") = .returned r) ∧
    serverActionCheck "refresh" = some (unknownActionMsg "refresh") ∧
    action_gate "refresh" = some (unknownReject "refresh") ∧
    execute_terraform "refresh" "/mnt/workspace/proj" none none
      (.ok 0 "" "") = .returned (unknownReject "refresh") := by
  have h := command_policy_blocklist "destroy" "/mnt/workspace/proj"
    none none (.ok 0 "" "")
  have h2 := command_policy_blocklist "refresh" "/mnt/workspace/proj"
    none none (.ok 0 "" "")
  exact ⟨h.1 (by decide),
    h2.2.2.1 (by decide) (by decide),
    h2.2.2.2 (by decide) (by decide)⟩

/-- Helper: a variable list with a binding whose serialized value holds
one of the spec's shell metacharacters never passes
`validate_terraform_vars` (the metacharacters are a subset of the
function's `dangerous_chars`, and a rejection of an earlier binding is a
rejection all the same). -/
theorem validate_terraform_vars_metachar (vars : List (String × String))
    (k v : String) (c : Char) (hmem : (k, v) ∈ vars)
    (hc : c ∈ specMetachars) (hv : c ∈ v.toList) :
    (validate_terraform_vars vars).1 = false := by
  have hmemd : c ∈ dangerous_chars := by fin_cases hc <;> decide
  induction vars with
  | nil => cases hmem
  | cons hd tl ih =>
    obtain ⟨k', v'⟩ := hd
    rcases List.mem_cons.mp hmem with heq | hmem'
    · obtain ⟨hk, hv'⟩ := Prod.mk.injEq .. ▸ heq
      subst hk
      subst hv'
      by_cases hkk : validVarKey k
      · have hany : ∃ x ∈ v.data, x ∈ dangerous_chars := ⟨c, hv, hmemd⟩
        simp [validate_terraform_vars, hkk, hany]
      · simp [validate_terraform_vars, hkk]
    · by_cases hkk : validVarKey k'
      · by_cases hany : ∃ x ∈ v'.toList, dangerous_chars.contains x = true
        · have hany2 : ∃ x ∈ v'.data, x ∈ dangerous_chars := by
            simpa using hany
          simp [validate_terraform_vars, hkk, hany2]
        · simp only [validate_terraform_vars, hkk, Bool.not_true,
            Bool.false_eq_true, if_false, List.any_eq_true]
          rw [if_neg hany]
          exact ih hmem'
      · simp [validate_terraform_vars, hkk]

/-- **C3**: For every `terry` invocation whose variables include a binding
whose serialized value contains one of the shell metacharacters the spec
names, the gateway returns an early error: some gate at or before
variable validation fires, the outcome does not depend on the path step
or the executor (so no command vector is built and no process spawned),
and the rejection message is fixed before either is consulted. -/
theorem terry_rejects_metachar_vars (auto_approve destroy : Bool)
    (actions : List String) (vars : List (String × String)) (path : String)
    (k v : String) (c : Char) (hmem : (k, v) ∈ vars)
    (hc : c ∈ specMetachars) (hv : c ∈ v.toList) :
    ∃ msg, ∀ (pathStep : String → Option String)
      (exec : String → String → ExecResult),
      terry_model auto_approve destroy actions vars path pathStep exec
        = .error msg := by
  cases auto_approve with
  | true => exact ⟨"auto_approve is blocked for security reasons",
      fun _ _ => rfl⟩
  | false =>
    cases destroy with
    | true => exact ⟨"destroy action is blocked for security reasons",
        fun _ _ => rfl⟩
    | false =>
      cases hsc : serverActionsCheck actions with
      | some e => exact ⟨e, fun _ _ => by simp [terry_model, hsc]⟩
      | none =>
        have hne : vars ≠ [] := by
          intro h
          rw [h] at hmem
          cases hmem
        have hval : (validate_terraform_vars vars).1 = false :=
          validate_terraform_vars_metachar vars k v c hmem hc hv
        exact ⟨"Variable validation failed: " ++
            (validate_terraform_vars vars).2,
          fun _ _ => by simp [terry_model, hsc, hne, hval]⟩

/-- Witness for C3: a `plan` request with `region = "us;east"` (the
semicolon is a spec metacharacter) is rejected before path resolution and
execution. -/
theorem terry_rejects_metachar_vars_witness :
    ∃ msg, ∀ (pathStep : String → Option String)
      (exec : String → String → ExecResult),
      terry_model false false ["plan"] [("region", "us;east")] "proj"
        pathStep exec = .error msg :=
  terry_rejects_metachar_vars false false ["plan"]
    [("region", "us;east")] "proj" "region" "us;east" ';'
    (by decide) (by decide) (by decide)

/-- Helper: `build_var_args` succeeds when every variable name passes the
identifier check. -/
theorem build_var_args_ok (vs : List (String × String))
    (h : ∀ p ∈ vs, validVarKey p.1 = true) :
    ∃ args, build_var_args vs = .ok args := by
  induction vs with
  | nil => exact ⟨[], rfl⟩
  | cons hd tl ih =>
    obtain ⟨k, v⟩ := hd
    have hk : validVarKey k = true := h (k, v) (List.mem_cons_self _ _)
    obtain ⟨args, hargs⟩ := ih (fun p hp => h p (List.mem_cons_of_mem _ hp))
    exact ⟨["-var", k ++ "=" ++ shlexQuote v] ++ args,
      by simp [build_var_args, hk, hargs]⟩

/-- Helper: `_build_command` succeeds when every variable name passes the
identifier check (the only raising step is `build_var_args`). -/
theorem build_command_ok (action : String) (extraArgs : Option (List String))
    (varsDict : Option (List (String × String)))
    (h : ∀ p ∈ varsDict.getD [], validVarKey p.1 = true) :
    ∃ cmd, build_command action extraArgs varsDict = .ok cmd := by
  unfold build_command
  by_cases hp : action = "plan"
  · subst hp
    cases varsDict with
    | none => exact ⟨_, rfl⟩
    | some vs =>
      by_cases hne : vs ≠ []
      · obtain ⟨args, hargs⟩ := build_var_args_ok vs (by simpa using h)
        exact ⟨["terraform", "plan", "-input=false", "-no-color"] ++ args
          ++ extraArgs.getD [], by simp [hne, hargs]⟩
      · exact ⟨["terraform", "plan", "-input=false", "-no-color"]
          ++ extraArgs.getD [], by simp [hne]⟩
  · simp only [if_neg hp]
    cases hfind : ([("init", ["terraform", "init", "-input=false"]),
        ("validate", ["terraform", "validate"]),
        ("fmt", ["terraform", "fmt", "-check", "-recursive"]),
        ("version", ["terraform", "version"]),
        ("providers", ["terraform", "providers"]),
        ("show", ["terraform", "show"]),
        ("graph", ["terraform", "graph"])].find?
          (fun p => p.1 == action)) with
    | none => exact ⟨"terraform" :: action :: extraArgs.getD [],
        by simp [hfind]⟩
    | some p => exact ⟨p.2 ++ extraArgs.getD [], by simp [hfind]⟩

/-- Counterexample to **C4**: the claim fails as stated.  Command
construction runs before the executor's `try` block, and
`build_var_args` raises `ValueError` on an invalid variable name, so a
`plan` request with the variable name `!` makes `execute_terraform`
raise across its boundary instead of returning a failed result. -/
theorem executor_raises_on_invalid_var_name :
    execute_terraform "plan" "/mnt/workspace/proj" none
      (some [("!", "x")]) (.ok 0 "" "")
      = .raised "Invalid variable name: !" := rfl

/-- **C4** (amended): for every input whose variable names all pass the
identifier check, `execute_terraform` never raises across its boundary —
it always returns a result — and, once the action gates pass, every
exception out of the spawn (`ExecutionError`, `TimeoutError`, anything
the `except Exception` arm sees) is converted into a returned failed
result whose diagnostic message is the exception's. -/
theorem executor_boundary_no_raise (action path : String)
    (extraArgs : Option (List String))
    (varsDict : Option (List (String × String))) (spawn : SpawnRes)
    (hkeys : ∀ p ∈ varsDict.getD [], validVarKey p.1 = true) :
    (∃ r, execute_terraform action path extraArgs varsDict spawn
      = .returned r) ∧
    (action_gate action = none → ∀ msg, spawn = .exc msg →
      execute_terraform action path extraArgs varsDict spawn
        = .returned ⟨false, -1, "", msg⟩) := by
  obtain ⟨cmd, hcmd⟩ := build_command_ok action extraArgs varsDict hkeys
  cases hg : action_gate action with
  | some r =>
    refine ⟨⟨r, ?_⟩, ?_⟩
    · simp [execute_terraform, hg]
    · intro hnone
      simp [hg] at hnone
  | none =>
    cases spawn with
    | ok rc out err =>
      refine ⟨⟨⟨rc == 0, rc, out, err⟩, ?_⟩, ?_⟩
      · simp [execute_terraform, hg, hcmd]
      · intro _ msg hmsg
        cases hmsg
    | exc msg =>
      refine ⟨⟨⟨false, -1, "", msg⟩, ?_⟩, ?_⟩
      · simp [execute_terraform, hg, hcmd]
      · intro _ msg' hmsg
        cases hmsg
        simp [execute_terraform, hg, hcmd]

/-- Witness for C4 (amended): a `plan` with the well-formed variable
`region` and a spawn that raises is returned as a failed result carrying
the exception message, never raised. -/
theorem executor_boundary_no_raise_witness :
    (∃ r, execute_terraform "plan" "/mnt/workspace/proj" none
      (some [("region", "us-east-1")]) (.exc "spawn failed")
      = .returned r) ∧
    (action_gate "plan" = none →
      ∀ msg, (SpawnRes.exc "spawn failed" : SpawnRes) = .exc msg →
      execute_terraform "plan" "/mnt/workspace/proj" none
        (some [("region", "us-east-1")]) (.exc "spawn failed")
        = .returned ⟨false, -1, "", msg⟩) :=
  executor_boundary_no_raise "plan" "/mnt/workspace/proj" none
    (some [("region", "us-east-1")]) (.exc "spawn failed") (by decide)

/-- **C5**: For every execution on a valid workspace directory whose
child process exceeds the wall-clock timeout, `run_terraform` returns
`success = false` with the timeout-tagged message, and the `finally`
block removes both temporary artifacts: the final filesystem holds
neither the variable file nor the `tfplan` file, whatever it held
before. -/
theorem run_terraform_timeout (path action : String)
    (vars : List (String × String)) (timeout : Nat) (fs : FS)
    (partialOut : Option String) (elapsed : ℚ)
    (planParse : Option (PlanSummary × List ResourceInfo))
    (textSummary : PlanSummary)
    (hex : fs.pathExists = true) (hdir : fs.pathIsDir = true) :
    run_terraform path action vars timeout fs (.timedOut partialOut)
        elapsed planParse textSummary
      = (⟨action, false, -1, partialOut.getD "",
          "Operation timed out after " ++ toString timeout ++ " seconds",
          (timeout : ℚ), none, none⟩,
         { fs with varFile := false, planFile := false }, 1) := by
  unfold run_terraform cleanupArtifacts
  rw [hex, hdir]
  by_cases hpv : action = "plan" ∧ vars ≠ [] <;> simp [hpv, hex, hdir]

/-- Witness for C5: a `plan` that times out after 5 seconds on an
existing directory returns the failed, timeout-tagged result and leaves
no variable file and no plan file behind. -/
theorem run_terraform_timeout_witness :
    run_terraform "/mnt/workspace/proj" "plan" [("region", "useast1")] 5
      ⟨true, true, false, false⟩ (.timedOut (some "partial out")) (7 / 2)
      none ⟨0, 0, 0⟩
    = (⟨"plan", false, -1, "partial out",
        "Operation timed out after 5 seconds", (5 : ℚ), none, none⟩,
       ⟨true, true, false, false⟩, 1) :=
  run_terraform_timeout "/mnt/workspace/proj" "plan"
    [("region", "useast1")] 5 ⟨true, true, false, false⟩
    (some "partial out") (7 / 2) none ⟨0, 0, 0⟩ rfl rfl

/-- **C10**: For every path that does not exist or is not a directory,
`run_terraform` returns the structured failure
`{action, success: false, exit_code: -1, stdout: "", stderr: message,
duration: 0}` immediately: the filesystem is untouched (no temporary
file created) and no process is spawned. -/
theorem run_terraform_invalid_path (path action : String)
    (vars : List (String × String)) (timeout : Nat) (fs : FS)
    (spawn : SpawnOutcome) (elapsed : ℚ)
    (planParse : Option (PlanSummary × List ResourceInfo))
    (textSummary : PlanSummary) :
    (fs.pathExists = false →
      run_terraform path action vars timeout fs spawn elapsed planParse
          textSummary
        = (⟨action, false, -1, "",
            "Workspace path does not exist: " ++ path, 0, none, none⟩,
           fs, 0)) ∧
    (fs.pathExists = true → fs.pathIsDir = false →
      run_terraform path action vars timeout fs spawn elapsed planParse
          textSummary
        = (⟨action, false, -1, "",
            "Workspace path is not a directory: " ++ path, 0, none, none⟩,
           fs, 0)) := by
  constructor
  · intro hex
    simp [run_terraform, hex]
  · intro hex hdir
    simp [run_terraform, hex, hdir]

/-- Witness for C10: a nonexistent workspace path yields the structured
failure with exit code `-1`, empty stdout, zero duration, an unchanged
filesystem, and zero spawned processes. -/
theorem run_terraform_invalid_path_witness :
    run_terraform "/mnt/workspace/missing" "plan" [] 300
      ⟨false, false, false, false⟩ (.completed 0 "" "" false) 1 none
      ⟨0, 0, 0⟩
    = (⟨"plan", false, -1, "",
        "Workspace path does not exist: /mnt/workspace/missing",
        0, none, none⟩,
       ⟨false, false, false, false⟩, 0) :=
  (run_terraform_invalid_path "/mnt/workspace/missing" "plan" [] 300
    ⟨false, false, false, false⟩ (.completed 0 "" "" false) 1 none
    ⟨0, 0, 0⟩).1 rfl

/-- Counterexample to **C6**: the claim fails as stated.  The enhanced
executor's spawn (`asyncio.create_subprocess_exec` in
`internal/terraform/executor.py`, called with no `env` argument) hands
the child the full ambient environment: with an ambient environment
holding only the non-allow-listed variable `SUPER_SECRET`, the spawned
CLI process sees it, while the controlled environment of
`get_controlled_env` does not contain it — so not every spawned CLI
process receives exactly the controlled environment. -/
theorem executor_env_not_controlled :
    executor_spawn_env
      (fun k => if k = "SUPER_SECRET" then some "token123" else none)
      "SUPER_SECRET" = some "token123" ∧
    get_controlled_env
      (fun k => if k = "SUPER_SECRET" then some "token123" else none)
      "SUPER_SECRET" = none := ⟨rfl, rfl⟩

/-- **C6** (amended): the environment the core execution module
(`terry-form-mcp.run_terraform` and `parse_plan_output`) passes to its
spawned CLI processes is exactly the controlled environment: every forced
automation variable has its fixed value regardless of the ambient
environment; every variable neither forced nor allow-listed is absent;
every allow-listed, non-forced variable is passed through from the
ambient environment; and the result depends only on the allow-listed
subset of the ambient environment (two ambient environments agreeing on
the allow-list produce identical controlled environments).  The enhanced
executor's own spawn instead inherits the full ambient environment. -/
theorem controlled_env_spec (ambient a1 a2 : String → Option String) :
    (∀ k v, forcedLookup k = some v →
      get_controlled_env ambient k = some v) ∧
    (∀ k, forcedLookup k = none → k ∉ ALLOWED_ENV_VARS →
      get_controlled_env ambient k = none) ∧
    (∀ k, forcedLookup k = none → k ∈ ALLOWED_ENV_VARS →
      get_controlled_env ambient k = ambient k) ∧
    ((∀ k, k ∈ ALLOWED_ENV_VARS → a1 k = a2 k) →
      ∀ k, get_controlled_env a1 k = get_controlled_env a2 k) := by
  refine ⟨?_, ?_, ?_, ?_⟩
  · intro k v hf
    simp [get_controlled_env, hf]
  · intro k hf hmem
    simp [get_controlled_env, hf, hmem]
  · intro k hf hmem
    simp [get_controlled_env, hf, hmem]
  · intro hagree k
    cases hf : forcedLookup k with
    | some v => simp [get_controlled_env, hf]
    | none =>
      by_cases hmem : k ∈ ALLOWED_ENV_VARS
      · simp [get_controlled_env, hf, hmem, hagree k hmem]
      · simp [get_controlled_env, hf, hmem]

/-- Witness for C6 (amended): with an ambient environment holding
`AWS_REGION` (allow-listed), `TF_INPUT` (forced) and `SUPER_SECRET`
(neither), the controlled environment forces `TF_INPUT = "false"`,
passes `AWS_REGION` through, and drops `SUPER_SECRET`; and a second
ambient environment agreeing on the allow-list yields the same
controlled value at `SUPER_SECRET`. -/
theorem controlled_env_spec_witness :
    get_controlled_env
      (fun k => if k = "AWS_REGION" then some "eu-west-1"
        else if k = "TF_INPUT" then some "true"
        else if k = "SUPER_SECRET" then some "token123" else none)
      "TF_INPUT" = some "false" ∧
    get_controlled_env
      (fun k => if k = "AWS_REGION" then some "eu-west-1"
        else if k = "TF_INPUT" then some "true"
        else if k = "SUPER_SECRET" then some "token123" else none)
      "SUPER_SECRET" = none ∧
    get_controlled_env
      (fun k => if k = "AWS_REGION" then some "eu-west-1"
        else if k = "TF_INPUT" then some "true"
        else if k = "SUPER_SECRET" then some "token123" else none)
      "AWS_REGION" = some "eu-west-1" := by
  have h := controlled_env_spec
    (fun k => if k = "AWS_REGION" then some "eu-west-1"
      else if k = "TF_INPUT" then some "true"
      else if k = "SUPER_SECRET" then some "token123" else none)
    (fun _ => none) (fun _ => none)
  exact ⟨h.1 "TF_INPUT" "false" (by decide),
    h.2.1 "SUPER_SECRET" (by decide) (by decide),
    h.2.2.1 "AWS_REGION" (by decide) (by decide)⟩

/-- Counterexample to **C7**: the claim fails as stated for two of the
three batch loops.  In `server_mcp_only.terry`'s loop a failing `fmt`
aborts the batch (the subsequent `plan` never executes, though the claim
says a failing `fmt` does not abort), and in `server.py`'s `terry` a
failing non-`fmt` action does not abort (the subsequent `plan` still
executes, though the claim says it must not). -/
theorem batch_abort_divergence :
    terry_exec_loop (fun _ => ⟨false, 3, "", "fmt check failed"⟩)
      ["fmt", "plan"]
      = [⟨false, 3, "", "fmt check failed"⟩] ∧
    server_py_terry_batch (fun _ => false) ["init", "plan"]
      = [("init", false), ("plan", false)] := ⟨rfl, rfl⟩

/-- **C7** (amended): in the core batch runner
(`terry-form-mcp.run_terraform_actions`) actions execute sequentially in
caller order (the executed actions are a prefix of the request, each
paired with its own outcome); every executed action before the last one
either succeeded or was `fmt` (so nothing runs after a non-`fmt`
failure, while a failing `fmt` does not abort); and the batch is only
cut short when its last executed action is a non-`fmt` failure.  (The
`server_mcp_only.terry` loop instead aborts on any failure including
`fmt`, and `server.py`'s loop never aborts — see the counterexample.) -/
theorem run_terraform_actions_spec (run : String → Bool)
    (actions : List String) :
    ((run_terraform_actions run actions).map Prod.fst <+: actions) ∧
    (∀ p ∈ run_terraform_actions run actions, p.2 = run p.1) ∧
    (∀ i, i + 1 < (run_terraform_actions run actions).length →
      ((run_terraform_actions run actions).getD i ("", true)).2 = true ∨
      ((run_terraform_actions run actions).getD i ("", true)).1 = "fmt") ∧
    ((run_terraform_actions run actions).length = actions.length ∨
      ∃ p, (run_terraform_actions run actions).getLast? = some p ∧
        p.2 = false ∧ p.1 ≠ "fmt") := by
  induction actions with
  | nil =>
    exact ⟨⟨[], rfl⟩, by simp [run_terraform_actions],
      by simp [run_terraform_actions], Or.inl rfl⟩
  | cons a rest ih =>
    obtain ⟨ih1, ih2, ih3, ih4⟩ := ih
    by_cases hstop : (!run a) = true ∧ a ≠ "fmt"
    · have hres : run_terraform_actions run (a :: rest) = [(a, run a)] := by
        simp only [run_terraform_actions]
        rw [if_pos hstop]
      have hfa : run a = false := by
        have := hstop.1
        cases hr : run a
        · rfl
        · rw [hr] at this
          cases this
      refine ⟨?_, ?_, ?_, ?_⟩
      · rw [hres]
        exact ⟨rest, rfl⟩
      · intro p hp
        rw [hres] at hp
        simp only [List.mem_singleton] at hp
        subst hp
        rfl
      · intro i hi
        rw [hres] at hi
        simp at hi
      · right
        exact ⟨(a, run a), by simp [hres], by simpa using hfa, hstop.2⟩
    · have hres : run_terraform_actions run (a :: rest)
          = (a, run a) :: run_terraform_actions run rest := by
        simp only [run_terraform_actions]
        rw [if_neg hstop]
      have hcond : run a = true ∨ a = "fmt" := by
        rcases not_and_or.mp hstop with h | h
        · left
          cases hr : run a
          · rw [hr] at h
            exact absurd rfl h
          · rfl
        · right
          exact not_not.mp h
      refine ⟨?_, ?_, ?_, ?_⟩
      · rw [hres]
        obtain ⟨t, ht⟩ := ih1
        exact ⟨t, by rw [List.map_cons, List.cons_append, ht]⟩
      · intro p hp
        rw [hres] at hp
        rcases List.mem_cons.mp hp with h | h
        · subst h
          rfl
        · exact ih2 p h
      · intro i hi
        rw [hres] at hi ⊢
        cases i with
        | zero => simpa using hcond
        | succ j =>
          simp only [List.getD_cons_succ]
          exact ih3 j (by simpa using hi)
      · rcases ih4 with hlen | ⟨p, hp, hp2, hp3⟩
        · left
          rw [hres]
          simp [hlen]
        · right
          refine ⟨p, ?_, hp2, hp3⟩
          rw [hres]
          cases hr : run_terraform_actions run rest with
          | nil =>
            rw [hr] at hp
            cases hp
          | cons b tl =>
            rw [hr] at hp
            rw [List.getLast?_cons_cons]
            exact hp

/-- Witness for C7 (amended): with `plan` succeeding and everything else
failing, the batch `[fmt, plan, init, validate]` executes `fmt` (failing
but non-aborting), `plan`, then stops at the failing `init`; the
executed actions are a prefix of the request. -/
theorem run_terraform_actions_spec_witness :
    run_terraform_actions (fun a => a == "plan")
      ["fmt", "plan", "init", "validate"]
      = [("fmt", false), ("plan", true), ("init", false)] ∧
    ((run_terraform_actions (fun a => a == "plan")
      ["fmt", "plan", "init", "validate"]).map Prod.fst <+:
      ["fmt", "plan", "init", "validate"]) :=
  ⟨rfl, (run_terraform_actions_spec (fun a => a == "plan")
    ["fmt", "plan", "init", "validate"]).1⟩

/-- Helper: the counting fold of `parse_plan_output` computes, on top of
its accumulator, the number of change entries whose action set contains
`create` / `update` / `delete` respectively. -/
theorem plan_counts_foldl (changes : List ResourceChange) (s : PlanSummary) :
    changes.foldl countStep s =
      ⟨s.add + changes.countP (fun c => c.actions.contains "create"),
       s.change + changes.countP (fun c => c.actions.contains "update"),
       s.destroy + changes.countP (fun c => c.actions.contains "delete")⟩ := by
  induction changes generalizing s with
  | nil => simp
  | cons c tl ih =>
    rw [List.foldl_cons, ih]
    cases hc : c.actions.contains "create" <;>
      cases hu : c.actions.contains "update" <;>
        cases hd : c.actions.contains "delete" <;>
          simp [countStep, List.countP_cons, hc, hu, hd] <;> omega

/-- Helper: when every change entry is classified into exactly one of the
three buckets, the three bucket counts sum to the number of entries. -/
theorem classify_partition_length (changes : List ResourceChange)
    (h : ∀ c ∈ changes,
      (if c.actions.contains "create" then 1 else 0) +
      (if c.actions.contains "update" then 1 else 0) +
      (if c.actions.contains "delete" then 1 else 0) = 1) :
    changes.countP (fun c => c.actions.contains "create") +
    changes.countP (fun c => c.actions.contains "update") +
    changes.countP (fun c => c.actions.contains "delete")
      = changes.length := by
  induction changes with
  | nil => simp
  | cons c tl ih =>
    have hc := h c (List.mem_cons_self _ _)
    have ih' := ih (fun x hx => h x (List.mem_cons_of_mem _ hx))
    cases h1 : c.actions.contains "create" <;>
      cases h2 : c.actions.contains "update" <;>
        cases h3 : c.actions.contains "delete" <;>
          simp [List.countP_cons, h1, h2, h3] at hc ih' ⊢ <;> omega

/-- **C8**: For every decoded machine-readable plan whose resource
changes classify into exactly 2 creates, 1 update and 0 deletes (each
change falling in exactly one bucket), the parser produces
`plan_summary = {add: 2, change: 1, destroy: 0}` and a `resources` list
of exactly 3 elements, each carrying the `address`, `type`, `name` and
`actions` of its change entry. -/
theorem plan_parse_classification (changes : List ResourceChange)
    (hone : ∀ c ∈ changes,
      (if c.actions.contains "create" then 1 else 0) +
      (if c.actions.contains "update" then 1 else 0) +
      (if c.actions.contains "delete" then 1 else 0) = 1)
    (hcreate : changes.countP (fun c => c.actions.contains "create") = 2)
    (hupdate : changes.countP (fun c => c.actions.contains "update") = 1)
    (hdelete : changes.countP (fun c => c.actions.contains "delete") = 0) :
    parse_plan_changes changes = (⟨2, 1, 0⟩, changes.map toResourceInfo) ∧
    (parse_plan_changes changes).2.length = 3 := by
  have hlen : changes.length = 3 := by
    rw [← classify_partition_length changes hone, hcreate, hupdate, hdelete]
  constructor
  · unfold parse_plan_changes
    rw [plan_counts_foldl, hcreate, hupdate, hdelete]
  · unfold parse_plan_changes
    simp [hlen]

/-- Witness for C8: a synthetic three-resource plan (two creates, one
update) classifies to `{add: 2, change: 1, destroy: 0}` with a
three-element resources list. -/
theorem plan_parse_classification_witness :
    parse_plan_changes
      [⟨"null_resource.a", "null_resource", "a", ["create"]⟩,
       ⟨"null_resource.b", "null_resource", "b", ["create"]⟩,
       ⟨"aws_s3_bucket.c", "aws_s3_bucket", "c", ["update"]⟩]
      = (⟨2, 1, 0⟩,
         [⟨"null_resource.a", "null_resource", "a", ["create"]⟩,
          ⟨"null_resource.b", "null_resource", "b", ["create"]⟩,
          ⟨"aws_s3_bucket.c", "aws_s3_bucket", "c", ["update"]⟩]) :=
  (plan_parse_classification
    [⟨"null_resource.a", "null_resource", "a", ["create"]⟩,
     ⟨"null_resource.b", "null_resource", "b", ["create"]⟩,
     ⟨"aws_s3_bucket.c", "aws_s3_bucket", "c", ["update"]⟩]
    (by decide) (by decide) (by decide) (by decide)).1

/-- Helper: an element of `dictSet l k v` is an element of `l` or the
pair `(k, v)` itself. -/
theorem mem_dictSet (l : List (String × PVal)) (k : String) (v : PVal)
    (p : String × PVal) (hp : p ∈ dictSet l k v) : p ∈ l ∨ p = (k, v) := by
  unfold dictSet at hp
  by_cases hany : l.any (fun q => q.1 == k)
  · rw [if_pos hany] at hp
    obtain ⟨q, hq, hqe⟩ := List.mem_map.mp hp
    by_cases hqk : q.1 == k
    · right
      rw [← hqe, if_pos hqk]
    · left
      rw [← hqe, if_neg hqk]
      exact hq
  · rw [if_neg hany] at hp
    rcases List.mem_append.mp hp with h | h
    · left
      exact h
    · right
      simpa using h
/-- Helper: after `d[k] = v`, looking up `k` yields `v`. -/
theorem dictGet_dictSet_self (l : List (String × PVal)) (k : String)
    (v : PVal) : dictGet (dictSet l k v) k = some v := by
  unfold dictSet dictGet
  by_cases hany : l.any (fun q => q.1 == k)
  · rw [if_pos hany]
    induction l with
    | nil => simp at hany
    | cons hd tl ih =>
      by_cases hk : hd.1 == k
      · simp [List.find?, hk]
      · have hany' : tl.any (fun q => q.1 == k) := by
          rcases List.any_eq_true.mp hany with ⟨q, hq, hqk⟩
          rcases List.mem_cons.mp hq with rfl | hq'
          · exact absurd hqk (by simpa using hk)
          · exact List.any_eq_true.mpr ⟨q, hq', hqk⟩
        simpa [List.find?, hk] using ih hany'
  · rw [if_neg hany]
    induction l with
    | nil => simp [List.find?]
    | cons hd tl ih =>
      have hk : (hd.1 == k) = false := by
        by_contra h
        exact hany (List.any_eq_true.mpr
          ⟨hd, List.mem_cons_self _ _, by simpa using h⟩)
      have hany' : ¬ tl.any (fun q => q.1 == k) := by
        intro h
        rcases List.any_eq_true.mp h with ⟨q, hq, hqk⟩
        exact hany (List.any_eq_true.mpr ⟨q, List.mem_cons_of_mem _ hq, hqk⟩)
      simpa [List.find?, hk] using ih hany'
/-- Helper: overwriting the entries keyed `k` does not change a lookup
for a different key `k'`. -/
theorem find_map_set_ne (l : List (String × PVal)) (k k' : String)
    (v : PVal) (hne : k' ≠ k) :
    (l.map (fun p => if p.1 == k then (k, v) else p)).find?
        (fun p => p.1 == k')
      = l.find? (fun p => p.1 == k') := by
  induction l with
  | nil => rfl
  | cons hd tl ih =>
    by_cases hk : hd.1 == k
    · have h1 : hd.1 = k := by simpa using hk
      have hd' : (hd.1 == k') = false := by
        rw [h1]
        exact beq_eq_false_iff_ne.mpr (Ne.symm hne)
      have hkk' : (k == k') = false := beq_eq_false_iff_ne.mpr (Ne.symm hne)
      simp only [List.map_cons, if_pos hk, List.find?, hkk', hd']
      exact ih
    · simp only [List.map_cons, if_neg hk, List.find?]
      cases hdk' : (hd.1 == k') with
      | true => rfl
      | false => exact ih

/-- Helper: appending the entry `(k, v)` does not change a lookup for a
different key `k'`. -/
theorem find_append_set_ne (l : List (String × PVal)) (k k' : String)
    (v : PVal) (hne : k' ≠ k) :
    (l ++ [(k, v)]).find? (fun p => p.1 == k')
      = l.find? (fun p => p.1 == k') := by
  induction l with
  | nil =>
    have hkk' : (k == k') = false := beq_eq_false_iff_ne.mpr (Ne.symm hne)
    simp [List.find?, hkk']
  | cons hd tl ih =>
    simp only [List.cons_append, List.find?]
    cases hdk' : (hd.1 == k') with
    | true => rfl
    | false => exact ih

/-- Helper: after `d[k] = v`, looking up a different key is unchanged. -/
theorem dictGet_dictSet_ne (l : List (String × PVal)) (k k' : String)
    (v : PVal) (hne : k' ≠ k) :
    dictGet (dictSet l k v) k' = dictGet l k' := by
  unfold dictSet dictGet
  by_cases hany : l.any (fun q => q.1 == k)
  · rw [if_pos hany, find_map_set_ne l k k' v hne]
  · rw [if_neg hany, find_append_set_ne l k k' v hne]
/-- Counterexample to **C9**: the claim fails as stated.  For the
registered tool `terry_validate` (whose schema declares only
`file_path`, `line`, `character`), `sanitize_params` appends
`auto_approve = False` and `destroy = False`, so the returned mapping
contains keys outside the tool's declared parameter schema. -/
theorem sanitize_params_injects_flags :
    sanitize_params "terry_validate" [("file_path", .vStr "main.tf")]
      = [("file_path", .vStr "main.tf"), ("auto_approve", .vBool false),
         ("destroy", .vBool false)] ∧
    tool_schema_keys "terry_validate"
      = some ["file_path", "line", "character"] ∧
    ¬ ("auto_approve" ∈ ["file_path", "line", "character"]) :=
  ⟨rfl, rfl, by decide⟩
/-- **C9** (amended): for every registered tool whose name begins with
`terry` and every argument mapping, `sanitize_params` returns a mapping
whose every key is either in the tool's declared parameter schema or one
of the two escalation flags it force-appends, and in which
`auto_approve` and `destroy` are present and equal `False` regardless of
their input values.  (Only for the `terry` tool itself, whose schema
declares both flags, is every returned key inside the schema.) -/
theorem sanitize_params_spec (method : String)
    (params : List (String × PVal)) (keys : List String)
    (hreg : tool_schema_keys method = some keys)
    (hterry : pyStartsWith method "terry" = true) :
    (∀ p ∈ sanitize_params method params,
      p.1 ∈ keys ∨ p.1 = "auto_approve" ∨ p.1 = "destroy") ∧
    dictGet (sanitize_params method params) "auto_approve"
      = some (.vBool false) ∧
    dictGet (sanitize_params method params) "destroy"
      = some (.vBool false) := by
  have hform : sanitize_params method params
      = dictSet (dictSet (params.filter (fun p => keys.contains p.1))
          "auto_approve" (.vBool false)) "destroy" (.vBool false) := by
    unfold sanitize_params
    rw [hreg, hterry]
    simp
  refine ⟨?_, ?_, ?_⟩
  · intro p hp
    rw [hform] at hp
    rcases mem_dictSet _ _ _ _ hp with hp' | hp'
    · rcases mem_dictSet _ _ _ _ hp' with hp'' | hp''
      · left
        have := (List.mem_filter.mp hp'').2
        simpa using this
      · right
        left
        rw [hp'']
    · right
      right
      rw [hp']
  · rw [hform, dictGet_dictSet_ne _ _ _ _ (by decide),
      dictGet_dictSet_self]
  · rw [hform, dictGet_dictSet_self]
/-- Witness for C9 (amended): sanitizing a `terry` call that smuggles an
unknown key and `auto_approve = True` keeps only schema keys or the
forced flags, and both flags come out `False`. -/
theorem sanitize_params_spec_witness :
    (∀ p ∈ sanitize_params "terry"
        [("path", .vStr "proj"), ("evil", .vStr "x"),
         ("auto_approve", .vBool true)],
      p.1 ∈ ["path", "actions", "vars", "auto_approve", "destroy"] ∨
        p.1 = "auto_approve" ∨ p.1 = "destroy") ∧
    dictGet (sanitize_params "terry"
        [("path", .vStr "proj"), ("evil", .vStr "x"),
         ("auto_approve", .vBool true)]) "auto_approve"
      = some (.vBool false) ∧
    dictGet (sanitize_params "terry"
        [("path", .vStr "proj"), ("evil", .vStr "x"),
         ("auto_approve", .vBool true)]) "destroy"
      = some (.vBool false) :=
  sanitize_params_spec "terry"
    [("path", .vStr "proj"), ("evil", .vStr "x"),
     ("auto_approve", .vBool true)]
    ["path", "actions", "vars", "auto_approve", "destroy"] rfl (by decide)
